import Mathlib

/-
Verification development for the configuration loader
(`neuralmonkey/config/config_loader.py`).

The Python module is shallowly embedded below.  Python's dynamically typed
values are modelled by the inductive `PyVal`; Python dicts (which preserve
insertion order) are modelled by association lists; exceptions are modelled
by `Except` with the inductive error type `CfgError`; the recursive object
builder `get_object` is modelled with an explicit fuel parameter (recursion
in the source is bounded only by the depth guard, so the embedding carries
fuel and a fuel-sufficiency theorem shows the fuel never runs out).
Object identity (Python reference equality) is modelled by an allocation
counter: each successful constructor call yields a fresh `PyVal.pyinst`
identifier, and the build state additionally logs (`built`) the declared
names in construction order.  Dynamic type lookup (`importlib` /
`getattr`) is modelled by an explicit registry, and the external
constructor call `clazz(**args)` by CPython's keyword-binding rule.
-/

/-- Runtime type tags, the result of Python's `type(...)` on the values the
formatter can produce.  A class value has type `type`, a function value has
type `function`. -/
inductive PyType where
  | boolT
  | noneT
  | intT
  | floatT
  | strT
  | listT
  | tupleT
  | typeT
  | funcT
  | instT
deriving DecidableEq, Repr

/-- A constructible type or function, abstracting the callables the loader
instantiates.  `specArgs` / `numDefaults` / `hasKeywords` record the result
of `getargspec` on `clazz.__init__ if isclass(clazz) else clazz`: the
ordered formal parameter names, how many trailing parameters have defaults,
and whether the callable takes arbitrary keyword arguments (`**kwargs`). -/
structure Clazz where
  cname : String
  isClass : Bool
  specArgs : List String
  numDefaults : Nat
  hasKeywords : Bool
deriving DecidableEq, Repr

/-- Python values flowing through the loader: the primitives, lists,
tuples, resolved classes, strings (object references are strings with the
`"object:"` prefix), and constructed instances identified by allocation
number. A float is kept as its source text; no claim needs float
arithmetic. -/
inductive PyVal where
  | pybool (b : Bool)
  | pynone
  | pyint (n : Int)
  | pyfloat (s : String)
  | pystr (s : String)
  | pylist (vs : List PyVal)
  | pytuple (vs : List PyVal)
  | pyclazz (c : Clazz)
  | pyinst (id : Nat)

/-- Python's `type(...)` on a `PyVal`. -/
def pytypeOf : PyVal → PyType
  | .pybool _ => .boolT
  | .pynone => .noneT
  | .pyint _ => .intT
  | .pyfloat _ => .floatT
  | .pystr _ => .strT
  | .pylist _ => .listT
  | .pytuple _ => .tupleT
  | .pyclazz c => if c.isClass then .typeT else .funcT
  | .pyinst _ => .instT

mutual

/-- Size measure on values (used for fuel bounds; every value has size at
least one, a list or tuple is larger than the sum of its members). -/
def vsize : PyVal → Nat
  | .pylist vs => 1 + vlsize vs
  | .pytuple vs => 1 + vlsize vs
  | _ => 1

/-- Sum of `vsize` over a list of values. -/
def vlsize : List PyVal → Nat
  | [] => 0
  | v :: vs => vsize v + vlsize vs

end

/-- Errors of the loader, one constructor per `raise` site (or per Python
built-in failure mode) of the source module. -/
inductive CfgError where
  | fuelOut
  | bracketEnd (c : Char) (col : Nat)
  | popEmpty
  | valueError (s : String)
  | importError (str mod : String)
  | attrError (str cls : String)
  | heteroList (ts : List PyType)
  | dupObject (line : Nat) (name : String)
  | dupKey (line : Nat) (key : String)
  | unknownString (line : Nat) (s : String)
  | iniWrap (line : Nat) (inner : CfgError)
  | keyError
  | noMainBlock
  | objectNotDefined (name : String)
  | depthExceeded
  | classNotDefined (name : String)
  | classNotCallable (name : String)
  | missingArgs (name : String) (missing : List String)
  | unexpectedArgs (name : String) (extra : List String)
  | argIndexError
  | typeError (cname : String)
  | buildWrap (name : String) (inner : CfgError)
deriving DecidableEq, Repr

deriving instance DecidableEq for Except

/-- First-match lookup in an association list (Python dict read). -/
def lookupA {α : Type} : List (String × α) → String → Option α
  | [], _ => none
  | (k, v) :: rest, key => if k = key then some v else lookupA rest key

/-- Update-or-append in an association list (Python dict assignment:
an existing key keeps its position, a new key goes to the end). -/
def setA {α : Type} : List (String × α) → String → α → List (String × α)
  | [], key, v => [(key, v)]
  | (k, w) :: rest, key, v =>
      if k = key then (key, v) :: rest else (k, w) :: setA rest key v

/-- Characters Python's `str.strip()` removes. -/
def isPySpace (c : Char) : Bool :=
  c = ' ' ∨ c = '\t' ∨ c = '\n' ∨ c = '\r' ∨ c = '\x0b' ∨ c = '\x0c'

/-- Python `line.strip()` on the character list. -/
def pyStrip (cs : List Char) : List Char :=
  ((cs.dropWhile isPySpace).reverse.dropWhile isPySpace).reverse

/-- Python `re.sub(r"#.*", "", line)`: everything from the first `#` to the
end of the line is removed. -/
def stripComment (cs : List Char) : List Char :=
  cs.takeWhile (fun c => c ≠ '#')

/-- Python `re.sub(r"\$TIME", time_stamp, line)`: every occurrence of the
token `$TIME` is replaced by the timestamp. -/
def replaceTime (ts : List Char) : List Char → List Char
  | '$' :: 'T' :: 'I' :: 'M' :: 'E' :: rest => ts ++ replaceTime ts rest
  | c :: rest => c :: replaceTime ts rest
  | [] => []

/-- The splitter `split_on_commas`, faithfully including its failure modes:
a closing bracket that does not match the most recently opened one raises
the bracket-mismatch error with the character index, a closing bracket with
no bracket open hits `list.pop()` on an empty list (an `IndexError`,
modelled by `popEmpty`), and no balance check happens at the end of the
input.  Arguments: remaining characters, current index, bracket stack
(`openings`, most recent first), current item buffer and finished items
(both in reverse). -/
def splitAux : List Char → Nat → List Char → List Char → List String →
    Except CfgError (List String)
  | [], _, _, buf, items =>
      .ok ((String.mk buf.reverse :: items).reverse)
  | c :: rest, i, openings, buf, items =>
      if c = ',' ∧ openings = [] then
        splitAux rest (i + 1) openings [] (String.mk buf.reverse :: items)
      else if c = ' ' ∧ buf = [] then
        splitAux rest (i + 1) openings buf items
      else if c = '(' ∨ c = '[' then
        splitAux rest (i + 1) (c :: openings) (c :: buf) items
      else if c = ')' then
        match openings with
        | [] => .error .popEmpty
        | o :: os =>
            if o ≠ '(' then .error (.bracketEnd ')' i)
            else splitAux rest (i + 1) os (c :: buf) items
      else if c = ']' then
        match openings with
        | [] => .error .popEmpty
        | o :: os =>
            if o ≠ '[' then .error (.bracketEnd ']' i)
            else splitAux rest (i + 1) os (c :: buf) items
      else
        splitAux rest (i + 1) openings (c :: buf) items

/-- `split_on_commas(string)`. -/
def splitOnCommas (s : String) : Except CfgError (List String) :=
  splitAux s.data 0 [] [] []

/-- Does the character satisfy `[a-zA-Z]`? -/
def isAsciiAlpha (c : Char) : Bool :=
  ('a' ≤ c ∧ c ≤ 'z') ∨ ('A' ≤ c ∧ c ≤ 'Z')

/-- Does the character satisfy `[a-zA-Z0-9_]`? -/
def isIdentChar (c : Char) : Bool :=
  isAsciiAlpha c ∨ ('0' ≤ c ∧ c ≤ '9') ∨ c = '_'

/-- Does the character list match `[a-zA-Z][a-zA-Z0-9_]*` completely? -/
def isIdent : List Char → Bool
  | [] => false
  | c :: rest => isAsciiAlpha c ∧ rest.all isIdentChar

/-- Does the character list match `_*[a-zA-Z][a-zA-Z0-9_]*` completely
(one segment of the `CLASS_NAME` pattern)? -/
def isClassSegment (cs : List Char) : Bool :=
  isIdent (cs.dropWhile (fun c => c = '_'))

/-- Splits a character list at a separator character (Python
`string.split(sep)` for a single-character separator). -/
def splitOnChar (sep : Char) : List Char → List (List Char)
  | [] => [[]]
  | c :: rest =>
      let r := splitOnChar sep rest
      if c = sep then [] :: r
      else
        match r with
        | [] => [[c]]
        | seg :: segs => (c :: seg) :: segs

/-- Match of `OBJECT_NAME`, the pattern `^\[([a-zA-Z][a-zA-Z0-9_]*)\]$`,
returning the captured section name. -/
def objectNameMatch (s : String) : Option String :=
  match s.data with
  | '[' :: rest =>
      if rest ≠ [] ∧ rest.getLast? = some ']' ∧ isIdent (rest.dropLast) then
        some (String.mk rest.dropLast)
      else none
  | _ => none

/-- Match of `OBJECT_REF`, the pattern `^<([a-zA-Z][a-zA-Z0-9_]*)>$`. -/
def objectRefMatch (s : String) : Option String :=
  match s.data with
  | '<' :: rest =>
      if rest ≠ [] ∧ rest.getLast? = some '>' ∧ isIdent (rest.dropLast) then
        some (String.mk rest.dropLast)
      else none
  | _ => none

/-- Match of `KEY_VALUE_PAIR`, the pattern
`^([a-zA-Z][a-zA-Z0-9_]*) *= *(.+)$`.  Greedy matching with backtracking
is equivalent to maximal munch here: after the identifier only spaces and
then an `=` can follow, and no identifier character is a space or `=`. -/
def keyValueMatch (s : String) : Option (String × String) :=
  match s.data with
  | [] => none
  | c :: rest =>
      if ¬ isAsciiAlpha c then none
      else
        let key := c :: rest.takeWhile isIdentChar
        let afterKey := rest.dropWhile isIdentChar
        let afterSpaces := afterKey.dropWhile (fun ch => ch = ' ')
        match afterSpaces with
        | '=' :: afterEq =>
            let v := afterEq.dropWhile (fun ch => ch = ' ')
            if v = [] then none
            else some (String.mk key, String.mk v)
        | _ => none

/-- Match of `INTEGER`, the pattern `^[0-9]+$`. -/
def integerMatch (s : String) : Bool :=
  s.data ≠ [] ∧ s.data.all (fun c => '0' ≤ c ∧ c ≤ '9')

/-- Digit-string to number (`int(string)` on a matched integer). -/
def digitsToNat : List Char → Nat → Nat
  | [], acc => acc
  | c :: rest, acc => digitsToNat rest (acc * 10 + (c.toNat - '0'.toNat))

/-- Match of `FLOAT`, the pattern `^[0-9]*\.[0-9]*(e[+-]?[0-9]+)?$`.
Returns the digit counts of the two mantissa parts when it matches, since
`float(string)` raises `ValueError` when the mantissa has no digit. -/
def floatMatch (s : String) : Option (Nat × Nat) :=
  let before := s.data.takeWhile (fun c => '0' ≤ c ∧ c ≤ '9')
  let rest := s.data.dropWhile (fun c => '0' ≤ c ∧ c ≤ '9')
  match rest with
  | '.' :: afterDot =>
      let frac := afterDot.takeWhile (fun c => '0' ≤ c ∧ c ≤ '9')
      let tail := afterDot.dropWhile (fun c => '0' ≤ c ∧ c ≤ '9')
      match tail with
      | [] => some (before.length, frac.length)
      | 'e' :: expPart =>
          let digits := match expPart with
            | '+' :: ds => ds
            | '-' :: ds => ds
            | ds => ds
          if digits ≠ [] ∧ digits.all (fun c => '0' ≤ c ∧ c ≤ '9') then
            some (before.length, frac.length)
          else none
      | _ => none
  | _ => none

/-- Match of `CLASS_NAME`, the pattern
`^_*[a-zA-Z][a-zA-Z0-9_]*(\._*[a-zA-Z][a-zA-Z0-9_]*)+$`: at least two
dot-separated segments, each of shape `_*[a-zA-Z][a-zA-Z0-9_]*`. -/
def classNameMatch (s : String) : Bool :=
  let segs := splitOnChar '.' s.data
  segs.length ≥ 2 ∧ segs.all isClassSegment

/-- Match of `LIST`, the unanchored-at-end pattern `\[([^]]*)\]` applied
with `re.match`: the string must begin with `[`, the capture is everything
up to the first `]` (the character class excludes `]`, so nested closing
brackets cut the capture short), and a `]` must exist. -/
def listMatch (s : String) : Option String :=
  match s.data with
  | '[' :: rest =>
      let inner := rest.takeWhile (fun c => c ≠ ']')
      if inner.length < rest.length then some (String.mk inner) else none
  | _ => none

/-- Last index of a character in a list, if any. -/
def lastIdxOf (c : Char) : List Char → Option Nat
  | [] => none
  | x :: xs =>
      match lastIdxOf c xs with
      | some i => some (i + 1)
      | none => if x = c then some 0 else none

/-- Match of `TUPLE`, the pattern `\(([^]]+)\)` applied with `re.match`:
the string must begin with `(`, the capture is a non-empty run of
non-`]` characters, and greedy matching with backtracking puts the closing
`\)` at the last `)` inside that run. -/
def tupleMatch (s : String) : Option String :=
  match s.data with
  | '(' :: rest =>
      let q := rest.takeWhile (fun c => c ≠ ']')
      match lastIdxOf ')' q with
      | some k => if 1 ≤ k then some (String.mk (q.take k)) else none
      | none => none
  | _ => none

/-- The external type registry abstracting `importlib.import_module` +
`getattr`: a module name resolves to its member table, a member name to a
class or function. -/
def Registry : Type := List (String × List (String × Clazz))

/-- Module lookup plus member lookup for the `CLASS_NAME` branch of
`format_value`: the module name is `"neuralmonkey." + dotted prefix`, the
member is the last segment. -/
def resolveClassName (reg : Registry) (s : String) : Except CfgError Clazz :=
  let parts := (splitOnChar '.' s.data).map String.mk
  let className := parts.getLast? |>.getD ""
  let moduleName := String.intercalate "." ("neuralmonkey" :: parts.dropLast)
  match lookupA reg moduleName with
  | none => .error (.importError s moduleName)
  | some members =>
      match lookupA members className with
      | none => .error (.attrError s className)
      | some c => .ok c

/-- Effectful map over a list, stopping at the first error. -/
def mapE {α β : Type} (f : α → Except CfgError β) :
    List α → Except CfgError (List β)
  | [] => .ok []
  | a :: rest => do
      let b ← f a
      let bs ← mapE f rest
      .ok (b :: bs)

/-- Remove adjacent-free duplicates keeping first occurrences (used to
model `set(types)`: only the cardinality matters). -/
def dedupKeepFirst : List PyType → List PyType
  | [] => []
  | t :: ts =>
      let r := dedupKeepFirst ts
      if t ∈ r then r else t :: r

/-- The value formatter `format_value`, with fuel for the recursion into
list and tuple items (each item is strictly shorter than the literal, so
`length + 1` fuel always suffices; see `formatValue`). -/
def formatValueF (reg : Registry) : Nat → String → Except CfgError PyVal
  | 0, _ => .error .fuelOut
  | fuel + 1, s =>
      if s = "False" then .ok (.pybool false)
      else if s = "True" then .ok (.pybool true)
      else if s = "None" then .ok .pynone
      else if integerMatch s then .ok (.pyint (Int.ofNat (digitsToNat s.data 0)))
      else
        match floatMatch s with
        | some (nb, nf) =>
            if nb = 0 ∧ nf = 0 then .error (.valueError s)
            else .ok (.pyfloat s)
        | none =>
            if classNameMatch s then
              match resolveClassName reg s with
              | .error e => .error e
              | .ok c => .ok (.pyclazz c)
            else
              match objectRefMatch s with
              | some name => .ok (.pystr ("object:" ++ name))
              | none =>
                  match listMatch s with
                  | some content =>
                      if content = "" then .ok (.pylist [])
                      else do
                        let items ← splitOnCommas content
                        let values ← mapE (formatValueF reg fuel) items
                        let types := values.map pytypeOf
                        if (dedupKeepFirst types).length > 1 then
                          .error (.heteroList types)
                        else
                          .ok (.pylist values)
                  | none =>
                      match tupleMatch s with
                      | some content => do
                          let items ← splitOnCommas content
                          let values ← mapE (formatValueF reg fuel) items
                          .ok (.pytuple values)
                      | none => .ok (.pystr s)

/-- `format_value(string)` with enough fuel. -/
def formatValue (reg : Registry) (s : String) : Except CfgError PyVal :=
  formatValueF reg (s.length + 1) s

/-- Parser state of `get_config_dicts`: the section map built so far and
the name of the currently open section (`current_name`, initially `None`). -/
structure ParseState where
  dicts : List (String × List (String × PyVal))
  current : Option String

/-- One iteration of the parsing loop of `get_config_dicts` on the line
with 0-based index `i` (Python `enumerate` starts at 0): strip, remove the
comment, substitute `$TIME`, then dispatch on blank line / `;` comment /
section header / key-value pair / unknown line.  Errors raised directly as
`IniSyntaxError` carry `i`; any other exception (a value-formatting
failure, or the `KeyError` from a key-value line before any section) is
re-wrapped as an `IniSyntaxError` carrying `i` and the original error. -/
def processLine (reg : Registry) (ts : String) (i : Nat) (st : ParseState)
    (raw : String) : Except CfgError ParseState :=
  let line := String.mk (replaceTime ts.data (stripComment (pyStrip raw.data)))
  if line = "" then .ok st
  else if line.data.head? = some ';' then .ok st
  else
    match objectNameMatch line with
    | some name =>
        if (lookupA st.dicts name).isSome then .error (.dupObject i name)
        else .ok ⟨st.dicts ++ [(name, [])], some name⟩
    | none =>
        match keyValueMatch line with
        | some kv =>
            match st.current with
            | none => .error (.iniWrap i .keyError)
            | some cur =>
                match lookupA st.dicts cur with
                | none => .error (.iniWrap i .keyError)
                | some d =>
                    if (lookupA d kv.1).isSome then .error (.dupKey i kv.1)
                    else
                      match formatValue reg kv.2 with
                      | .error e => .error (.iniWrap i e)
                      | .ok v => .ok ⟨setA st.dicts cur (d ++ [(kv.1, v)]), st.current⟩
        | none => .error (.unknownString i line)

/-- The parsing loop of `get_config_dicts`, processing the remaining lines
starting at index `i`. -/
def getConfigDictsAux (reg : Registry) (ts : String) :
    Nat → ParseState → List String →
    Except CfgError (List (String × List (String × PyVal)))
  | _, st, [] => .ok st.dicts
  | i, st, l :: ls =>
      match processLine reg ts i st l with
      | .error e => .error e
      | .ok st' => getConfigDictsAux reg ts (i + 1) st' ls

/-- `get_config_dicts(config_file)`: the lines of the file against a fixed
run-wide timestamp string. -/
def getConfigDicts (reg : Registry) (ts : String) (lines : List String) :
    Except CfgError (List (String × List (String × PyVal))) :=
  getConfigDictsAux reg ts 0 ⟨[], none⟩ lines

/-- Build state threaded through `get_object`: the resolution cache
`existing_objects` (keys are the raw string values, e.g. `"object:name"`
markers), plus two instrumentation fields modelling Python's heap: the
next fresh instance identifier and the log of declared names in
construction order. -/
structure BuildState where
  cache : List (String × PyVal)
  nextId : Nat
  built : List String

/-- The characters of the object-reference marker prefix `"object:"`. -/
def objectPrefixChars : List Char := ['o', 'b', 'j', 'e', 'c', 't', ':']

/-- Python slice `l[start:-k]` for a non-negative `k` as it appears in
`get_object`: since `-0 == 0`, a zero `k` makes the slice `l[start:0]`,
which is empty. -/
def pySliceNeg (l : List String) (start k : Nat) : List String :=
  let stop := if k = 0 then 0 else l.length - k
  (l.take stop).drop start

/-- The `required_args` computation of `get_object`: the slice of
`arg_spec.args` dropping a leading `self` and the last `len(defaults)`
entries.  Faithfully inherits the `l[1:-0] == []` slice behaviour when the
callable has no defaulted parameter. -/
def requiredOf (c : Clazz) : List String :=
  match c.specArgs with
  | [] => []
  | a0 :: _ =>
      if a0 = "self" then pySliceNeg c.specArgs 1 c.numDefaults
      else pySliceNeg c.specArgs 0 c.numDefaults

/-- One step of the loop over supplied argument names: a name found in the
remaining required set is removed from it, a name not among the formal
parameters at all is added to the unexpected set. -/
def scanArg (allArgs : List String) (p : List String × List String)
    (key : String) : List String × List String :=
  let rem := if p.1.contains key then p.1.erase key else p.1
  let add :=
    if allArgs.contains key then p.2
    else if p.2.contains key then p.2 else p.2 ++ [key]
  (rem, add)

/-- The signature-validation block of `get_object` (lines guarded by
`if not arg_spec.keywords`): skipped entirely for callables with
`**kwargs`; `arg_spec.args[0]` on an empty parameter list is an
`IndexError`; a non-empty leftover required set raises the missing-args
error, and only otherwise a non-empty unexpected set raises the
unexpected-argument error. -/
def checkArgsSpec (name : String) (c : Clazz) (argKeys : List String) :
    Except CfgError Unit :=
  if c.hasKeywords then .ok ()
  else
    match c.specArgs with
    | [] => .error .argIndexError
    | _ :: _ =>
        let scanned := argKeys.foldl (scanArg c.specArgs) (requiredOf c, [])
        if scanned.1 ≠ [] then .error (.missingArgs name scanned.1)
        else if scanned.2 ≠ [] then .error (.unexpectedArgs name scanned.2)
        else .ok ()

/-- Modelled external behaviour of the constructor call `clazz(**args)`:
CPython binds the keyword arguments against the callable's signature (for
a class the implicit receiver is bound automatically), and raises a
`TypeError` when a parameter without default is unbound or, absent
`**kwargs`, a keyword matches no formal parameter.  The loader catches any
such failure and wraps it. -/
def pyCallOk (c : Clazz) (argKeys : List String) : Bool :=
  let formals := if c.isClass then c.specArgs.drop 1 else c.specArgs
  let requiredCall := formals.take (formals.length - c.numDefaults)
  requiredCall.all (fun p => argKeys.contains p) &&
    (c.hasKeywords || argKeys.all (fun k => formals.contains k))

/-- Resolve a list of values in order, threading the build state and
stopping at the first error (the list comprehensions of `get_object`). -/
def resolveList (f : PyVal → BuildState → Except CfgError (PyVal × BuildState)) :
    List PyVal → BuildState → Except CfgError (List PyVal × BuildState)
  | [], st => .ok ([], st)
  | v :: vs, st =>
      match f v st with
      | .error e => .error e
      | .ok p =>
          match resolveList f vs p.2 with
          | .error e => .error e
          | .ok q => .ok (p.1 :: q.1, q.2)

/-- `get_object(value, all_dicts, existing_objects, ignore_names, depth)`
with fuel.  Branch order follows the source: non-string iterables resolve
element-wise into a list; a value contained in the ignore set caches and
returns `None`; a cached value returns the cached instance; a non-marker
value returns unchanged; otherwise the referenced section is looked up,
the depth guard (`depth > 20`) fires, the `class` entry is fetched and
checked callable, the remaining entries are resolved at `depth + 1`, the
signature is validated, and the instance is constructed and cached under
the full marker string before being returned. -/
def getObjectF (allDicts : List (String × List (String × PyVal)))
    (ign : List String) :
    Nat → PyVal → BuildState → Nat → Except CfgError (PyVal × BuildState)
  | 0, _, _, _ => .error .fuelOut
  | fuel + 1, value, st, depth =>
    match value with
    | .pylist vs =>
        match resolveList
            (fun v s => getObjectF allDicts ign fuel v s (depth + 1)) vs st with
        | .error e => .error e
        | .ok q => .ok (.pylist q.1, q.2)
    | .pytuple vs =>
        match resolveList
            (fun v s => getObjectF allDicts ign fuel v s (depth + 1)) vs st with
        | .error e => .error e
        | .ok q => .ok (.pylist q.1, q.2)
    | .pystr s =>
        if ign.contains s then
          .ok (.pynone, ⟨setA st.cache s .pynone, st.nextId, st.built⟩)
        else
          match lookupA st.cache s with
          | some v => .ok (v, st)
          | none =>
              if s.data.take 7 ≠ objectPrefixChars then .ok (.pystr s, st)
              else
                let name := String.mk (s.data.drop 7)
                match lookupA allDicts name with
                | none => .error (.objectNotDefined name)
                | some thisDict =>
                    if depth > 20 then .error .depthExceeded
                    else
                      match lookupA thisDict "class" with
                      | some (.pyclazz clazz) =>
                          let entries := thisDict.filter (fun kv => kv.1 ≠ "class")
                          match resolveList
                              (fun v s => getObjectF allDicts ign fuel v s (depth + 1))
                              (entries.map (fun kv => kv.2)) st with
                          | .error e => .error e
                          | .ok q =>
                              match checkArgsSpec name clazz (entries.map (fun kv => kv.1)) with
                              | .error e => .error e
                              | .ok _ =>
                                  if pyCallOk clazz (entries.map (fun kv => kv.1)) then
                                    .ok (.pyinst q.2.nextId,
                                      ⟨setA q.2.cache s (.pyinst q.2.nextId),
                                        q.2.nextId + 1, q.2.built ++ [name]⟩)
                                  else .error (.buildWrap name (.typeError clazz.cname))
                      | some _ => .error (.classNotCallable name)
                      | none => .error (.classNotDefined name)
    | v => .ok (v, st)

/-- Sum of the value sizes of one section's entries. -/
def dictSize (d : List (String × PyVal)) : Nat :=
  vlsize (d.map (fun kv => kv.2))

/-- Largest section size of a parsed document; every value reachable from
a section lookup has size at most this. -/
def maxDictSize (dicts : List (String × List (String × PyVal))) : Nat :=
  (dicts.map (fun s => dictSize s.2)).foldr max 0

/-- Fuel that provably suffices for any resolution over the document
(see the fuel-sufficiency theorem). -/
def loadFuel (dicts : List (String × List (String × PyVal))) : Nat :=
  22 * (2 * maxDictSize dicts + 2)

/-- The loop of `load_config_file` over the keys of `main`: keys in the
ignore set are skipped, every other value is resolved at depth 0 with the
one shared cache, and a failure is wrapped with the key's name. -/
def buildKeys (dicts : List (String × List (String × PyVal)))
    (ign : List String) (fuel : Nat) :
    List (String × PyVal) → BuildState → List (String × PyVal) →
    Except CfgError (List (String × PyVal) × BuildState)
  | [], st, acc => .ok (acc, st)
  | (key, value) :: rest, st, acc =>
      if ign.contains key then buildKeys dicts ign fuel rest st acc
      else
        match getObjectF dicts ign fuel value st 0 with
        | .error e => .error (.buildWrap key e)
        | .ok p => buildKeys dicts ign fuel rest p.2 (acc ++ [(key, p.1)])

/-- `load_config_file(config_file, ignore_names)`, additionally returning
the final build state (instrumentation; the Python function returns only
the configuration mapping, see `loadConfigFile`). -/
def loadConfigRun (reg : Registry) (ts : String) (lines : List String)
    (ign : List String) :
    Except CfgError (List (String × PyVal) × BuildState) := do
  let dicts ← getConfigDicts reg ts lines
  match lookupA dicts "main" with
  | none => .error .noMainBlock
  | some mainConfig =>
      buildKeys dicts ign (loadFuel dicts) mainConfig ⟨[], 0, []⟩ []

/-- `load_config_file`, returning the configuration mapping. -/
def loadConfigFile (reg : Registry) (ts : String) (lines : List String)
    (ign : List String) : Except CfgError (List (String × PyVal)) :=
  (loadConfigRun reg ts lines ign).map (fun p => p.1)

/-- A class accepting arbitrary keyword arguments (signature validation is
skipped for it and every constructor call binds). -/
def kwClazz : Clazz := ⟨"K", true, ["self"], 0, true⟩

/-- The empty build state a load starts from. -/
def st0 : BuildState := ⟨[], 0, []⟩

/-- A document with a two-section reference cycle: the arguments of `a`
reference `<b>` and the arguments of `b` reference `<a>`. -/
def cycleDoc : List (String × List (String × PyVal)) :=
  [("a", [("class", .pyclazz kwClazz), ("x", .pystr "object:b")]),
   ("b", [("class", .pyclazz kwClazz), ("y", .pystr "object:a")])]

/-- A pure reference chain of 21 sections `c0 → c1 → … → c20`; resolving
`c0` at depth 0 reaches depth 20 at the deepest call. -/
def chainDoc : List (String × List (String × PyVal)) :=
  [   ("c0", [("class", .pyclazz kwClazz), ("next", .pystr "object:c1")]),
   ("c1", [("class", .pyclazz kwClazz), ("next", .pystr "object:c2")]),
   ("c2", [("class", .pyclazz kwClazz), ("next", .pystr "object:c3")]),
   ("c3", [("class", .pyclazz kwClazz), ("next", .pystr "object:c4")]),
   ("c4", [("class", .pyclazz kwClazz), ("next", .pystr "object:c5")]),
   ("c5", [("class", .pyclazz kwClazz), ("next", .pystr "object:c6")]),
   ("c6", [("class", .pyclazz kwClazz), ("next", .pystr "object:c7")]),
   ("c7", [("class", .pyclazz kwClazz), ("next", .pystr "object:c8")]),
   ("c8", [("class", .pyclazz kwClazz), ("next", .pystr "object:c9")]),
   ("c9", [("class", .pyclazz kwClazz), ("next", .pystr "object:c10")]),
   ("c10", [("class", .pyclazz kwClazz), ("next", .pystr "object:c11")]),
   ("c11", [("class", .pyclazz kwClazz), ("next", .pystr "object:c12")]),
   ("c12", [("class", .pyclazz kwClazz), ("next", .pystr "object:c13")]),
   ("c13", [("class", .pyclazz kwClazz), ("next", .pystr "object:c14")]),
   ("c14", [("class", .pyclazz kwClazz), ("next", .pystr "object:c15")]),
   ("c15", [("class", .pyclazz kwClazz), ("next", .pystr "object:c16")]),
   ("c16", [("class", .pyclazz kwClazz), ("next", .pystr "object:c17")]),
   ("c17", [("class", .pyclazz kwClazz), ("next", .pystr "object:c18")]),
   ("c18", [("class", .pyclazz kwClazz), ("next", .pystr "object:c19")]),
   ("c19", [("class", .pyclazz kwClazz), ("next", .pystr "object:c20")]),
   ("c20", [("class", .pyclazz kwClazz)])]

/-- A single constructible section named `foo`. -/
def fooDoc : List (String × List (String × PyVal)) :=
  [("foo", [("class", .pyclazz kwClazz)])]

/-- A class with one required parameter and no defaulted parameter. -/
def c3Clazz : Clazz := ⟨"C3", true, ["self", "a"], 0, false⟩

/-- A section using `c3Clazz` and supplying no arguments. -/
def c3Doc : List (String × List (String × PyVal)) :=
  [("x", [("class", .pyclazz c3Clazz)])]

/-- A class with one required parameter `a` and one defaulted `b`. -/
def c4Clazz : Clazz := ⟨"C4", true, ["self", "a", "b"], 1, false⟩

/-- A section using `c4Clazz` that omits the required `a` and supplies the
undeclared `z`. -/
def c4Doc : List (String × List (String × PyVal)) :=
  [("x", [("class", .pyclazz c4Clazz), ("z", .pyint 1)])]

/-- A registry exposing `kwClazz` as `neuralmonkey.m.K`. -/
def regK : Registry := [("neuralmonkey.m", [("K", kwClazz)])]

/-- The line number carried by a parser diagnostic, when it has one. -/
def errLine : CfgError → Option Nat
  | .dupObject l _ => some l
  | .dupKey l _ => some l
  | .unknownString l _ => some l
  | .iniWrap l _ => some l
  | _ => none


/-- Every value has positive size. -/
theorem vsize_pos (v : PyVal) : 1 ≤ vsize v := by
  cases v <;> simp [vsize]

/-- A member of a list of values is at most the list's total size. -/
theorem vsize_mem_le {v : PyVal} : ∀ {vs : List PyVal}, v ∈ vs → vsize v ≤ vlsize vs := by
  intro vs
  induction vs with
  | nil => intro h; cases h
  | cons w rest ih =>
      intro h
      rcases List.mem_cons.mp h with h1 | h2
      · subst h1; simp [vlsize]
      · have := ih h2
        simp [vlsize]
        omega

/-- A value stored in a section is at most the section's size. -/
theorem vsize_entry_le {kv : String × PyVal} :
    ∀ {d : List (String × PyVal)}, kv ∈ d → vsize kv.2 ≤ dictSize d := by
  intro d
  induction d with
  | nil => intro h; cases h
  | cons e rest ih =>
      intro h
      rcases List.mem_cons.mp h with h1 | h2
      · subst h1; simp [dictSize, vlsize]
      · have := ih h2
        simp [dictSize, vlsize] at *
        omega

/-- A value among the non-`class` entries of a section is at most the
section's size. -/
theorem vsize_filtered_le {v : PyVal} {d : List (String × PyVal)}
    (p : String × PyVal → Bool)
    (h : v ∈ (d.filter p).map (fun kv => kv.2)) : vsize v ≤ dictSize d := by
  rcases List.mem_map.mp h with ⟨kv, hmem, hv⟩
  have hmem' : kv ∈ d := List.mem_of_mem_filter hmem
  have := vsize_entry_le hmem'
  rw [hv] at this
  exact this

/-- A section found in the document has size at most `maxDictSize`. -/
theorem lookupA_maxDictSize {dicts : List (String × List (String × PyVal))}
    {name : String} {d : List (String × PyVal)}
    (h : lookupA dicts name = some d) : dictSize d ≤ maxDictSize dicts := by
  induction dicts with
  | nil => cases h
  | cons e rest ih =>
      rw [lookupA] at h
      by_cases he : e.1 = name
      · rw [if_pos he] at h
        injection h with h
        subst h
        simp [maxDictSize]
      · rw [if_neg he] at h
        have := ih h
        simp [maxDictSize] at *
        omega

/-- Looking up the key just stored finds the stored value. -/
theorem lookupA_setA_self {α : Type} (l : List (String × α)) (k : String) (v : α) :
    lookupA (setA l k v) k = some v := by
  induction l with
  | nil => simp [setA, lookupA]
  | cons e rest ih =>
      by_cases he : e.1 = k
      · simp [setA, he, lookupA]
      · simp [setA, he, lookupA, ih]

/-- Storing one key leaves every other key's binding unchanged. -/
theorem lookupA_setA_ne {α : Type} (l : List (String × α)) (k x : String) (v : α)
    (hne : x ≠ k) : lookupA (setA l k v) x = lookupA l x := by
  have hkx : ¬ k = x := fun h => hne h.symm
  induction l with
  | nil => simp [setA, lookupA, hkx]
  | cons e rest ih =>
      by_cases he : e.1 = k
      · subst he
        simp [setA, lookupA, hkx]
      · simp [setA, he, lookupA, ih]

/-- If every element call neither runs out of fuel nor changes its result
with one more unit of fuel, the same holds for the whole list resolution. -/
theorem resolveList_grow
    (f g : PyVal → BuildState → Except CfgError (PyVal × BuildState)) :
    ∀ (vs : List PyVal) (st : BuildState),
      (∀ v ∈ vs, ∀ s, f v s ≠ .error .fuelOut ∧ g v s = f v s) →
      resolveList f vs st ≠ .error .fuelOut ∧
      resolveList g vs st = resolveList f vs st := by
  intro vs
  induction vs with
  | nil =>
      intro st h
      exact ⟨by simp [resolveList], rfl⟩
  | cons v rest ih =>
      intro st h
      have hv := h v (List.mem_cons_self v rest) st
      have hrest : ∀ w ∈ rest, ∀ s, f w s ≠ .error .fuelOut ∧ g w s = f w s :=
        fun w hw s => h w (List.mem_cons_of_mem v hw) s
      cases hfv : f v st with
      | error e =>
          have hne : Except.error (α := PyVal × BuildState) e ≠ .error .fuelOut := by
            rw [← hfv]; exact hv.1
          constructor
          · simpa [resolveList, hfv] using hne
          · simp [resolveList, hfv, hv.2]
      | ok p =>
          have hih := ih p.2 hrest
          constructor
          · simp only [resolveList, hfv]
            cases hr : resolveList f rest p.2 with
            | error e =>
                have : Except.error (α := List PyVal × BuildState) e ≠ .error .fuelOut := by
                  rw [← hr]; exact hih.1
                simpa using this
            | ok q => simp
          · simp only [resolveList, hfv, hv.2, hih.2]

theorem getObjectF_zero (dicts : List (String × List (String × PyVal)))
    (ign : List String) (v : PyVal) (st : BuildState) (d : Nat) :
    getObjectF dicts ign 0 v st d = .error .fuelOut := rfl

theorem getObjectF_plain_pybool (dicts : List (String × List (String × PyVal)))
    (ign : List String) (n : Nat) (b : Bool) (st : BuildState) (d : Nat) :
    getObjectF dicts ign (n + 1) (.pybool b) st d = .ok (.pybool b, st) := rfl

theorem getObjectF_unfold_pylist (dicts : List (String × List (String × PyVal)))
    (ign : List String) (n : Nat) (vs : List PyVal) (st : BuildState) (d : Nat) :
    getObjectF dicts ign (n + 1) (.pylist vs) st d =
      match resolveList (fun v s => getObjectF dicts ign n v s (d + 1)) vs st with
      | .error e => .error e
      | .ok q => .ok (.pylist q.1, q.2) := rfl

theorem getObjectF_unfold_pytuple (dicts : List (String × List (String × PyVal)))
    (ign : List String) (n : Nat) (vs : List PyVal) (st : BuildState) (d : Nat) :
    getObjectF dicts ign (n + 1) (.pytuple vs) st d =
      match resolveList (fun v s => getObjectF dicts ign n v s (d + 1)) vs st with
      | .error e => .error e
      | .ok q => .ok (.pylist q.1, q.2) := rfl

theorem getObjectF_str_ign (dicts : List (String × List (String × PyVal)))
    (ign : List String) (n : Nat) (s : String) (st : BuildState) (d : Nat)
    (h1 : s ∈ ign) :
    getObjectF dicts ign (n + 1) (.pystr s) st d =
      .ok (.pynone, ⟨setA st.cache s .pynone, st.nextId, st.built⟩) := by
  simp only [getObjectF]
  simp [h1]

theorem getObjectF_str_cached (dicts : List (String × List (String × PyVal)))
    (ign : List String) (n : Nat) (s : String) (st : BuildState) (d : Nat)
    (v0 : PyVal) (h1 : s ∉ ign) (h2 : lookupA st.cache s = some v0) :
    getObjectF dicts ign (n + 1) (.pystr s) st d = .ok (v0, st) := by
  simp only [getObjectF]
  simp [h1, h2]

theorem getObjectF_str_plain (dicts : List (String × List (String × PyVal)))
    (ign : List String) (n : Nat) (s : String) (st : BuildState) (d : Nat)
    (h1 : s ∉ ign) (h2 : lookupA st.cache s = none)
    (h3 : s.data.take 7 ≠ objectPrefixChars) :
    getObjectF dicts ign (n + 1) (.pystr s) st d = .ok (.pystr s, st) := by
  simp only [getObjectF]
  simp [h1, h2, h3]

theorem getObjectF_str_undef (dicts : List (String × List (String × PyVal)))
    (ign : List String) (n : Nat) (s : String) (st : BuildState) (d : Nat)
    (h1 : s ∉ ign) (h2 : lookupA st.cache s = none)
    (h3 : s.data.take 7 = objectPrefixChars)
    (h4 : lookupA dicts (String.mk (s.data.drop 7)) = none) :
    getObjectF dicts ign (n + 1) (.pystr s) st d =
      .error (.objectNotDefined (String.mk (s.data.drop 7))) := by
  simp only [getObjectF]
  simp [h1, h2, h3, h4]

theorem getObjectF_str_deep (dicts : List (String × List (String × PyVal)))
    (ign : List String) (n : Nat) (s : String) (st : BuildState) (d : Nat)
    (thisDict : List (String × PyVal))
    (h1 : s ∉ ign) (h2 : lookupA st.cache s = none)
    (h3 : s.data.take 7 = objectPrefixChars)
    (h4 : lookupA dicts (String.mk (s.data.drop 7)) = some thisDict)
    (h5 : d > 20) :
    getObjectF dicts ign (n + 1) (.pystr s) st d = .error .depthExceeded := by
  simp only [getObjectF]
  simp [h1, h2, h3, h4, h5]

theorem getObjectF_str_noclass (dicts : List (String × List (String × PyVal)))
    (ign : List String) (n : Nat) (s : String) (st : BuildState) (d : Nat)
    (thisDict : List (String × PyVal))
    (h1 : s ∉ ign) (h2 : lookupA st.cache s = none)
    (h3 : s.data.take 7 = objectPrefixChars)
    (h4 : lookupA dicts (String.mk (s.data.drop 7)) = some thisDict)
    (h5 : ¬ d > 20) (h6 : lookupA thisDict "class" = none) :
    getObjectF dicts ign (n + 1) (.pystr s) st d =
      .error (.classNotDefined (String.mk (s.data.drop 7))) := by
  simp only [getObjectF]
  simp [h1, h2, h3, h4, h5, h6]

theorem getObjectF_str_clazz (dicts : List (String × List (String × PyVal)))
    (ign : List String) (n : Nat) (s : String) (st : BuildState) (d : Nat)
    (thisDict : List (String × PyVal)) (clazz : Clazz)
    (h1 : s ∉ ign) (h2 : lookupA st.cache s = none)
    (h3 : s.data.take 7 = objectPrefixChars)
    (h4 : lookupA dicts (String.mk (s.data.drop 7)) = some thisDict)
    (h5 : ¬ d > 20) (h6 : lookupA thisDict "class" = some (.pyclazz clazz)) :
    getObjectF dicts ign (n + 1) (.pystr s) st d =
      match resolveList (fun v s => getObjectF dicts ign n v s (d + 1))
          ((thisDict.filter (fun kv => kv.1 ≠ "class")).map (fun kv => kv.2)) st with
      | .error e => .error e
      | .ok q =>
          match checkArgsSpec (String.mk (s.data.drop 7)) clazz
              ((thisDict.filter (fun kv => kv.1 ≠ "class")).map (fun kv => kv.1)) with
          | .error e => .error e
          | .ok _ =>
              if pyCallOk clazz
                  ((thisDict.filter (fun kv => kv.1 ≠ "class")).map (fun kv => kv.1)) then
                .ok (.pyinst q.2.nextId,
                  ⟨setA q.2.cache s (.pyinst q.2.nextId),
                    q.2.nextId + 1, q.2.built ++ [String.mk (s.data.drop 7)]⟩)
              else .error (.buildWrap (String.mk (s.data.drop 7))
                (.typeError clazz.cname)) := by
  simp only [getObjectF]
  simp [h1, h2, h3, h4, h5, h6]

/-- The signature validator never reports fuel exhaustion. -/
theorem checkArgsSpec_ne_fuelOut (name : String) (c : Clazz) (keys : List String) :
    checkArgsSpec name c keys ≠ .error .fuelOut := by
  unfold checkArgsSpec
  split
  · simp
  · split
    · simp
    · dsimp only
      split
      · simp
      · split <;> simp

/-- Successful list resolution preserves the number of elements. -/
theorem resolveList_length
    (f : PyVal → BuildState → Except CfgError (PyVal × BuildState)) :
    ∀ (vs : List PyVal) (st : BuildState) (q : List PyVal × BuildState),
      resolveList f vs st = .ok q → q.1.length = vs.length := by
  intro vs
  induction vs with
  | nil =>
      intro st q h
      rw [resolveList] at h
      injection h with h
      rw [← h]
  | cons v rest ih =>
      intro st q h
      rw [resolveList] at h
      cases hfv : f v st with
      | error e => simp only [hfv] at h; cases h
      | ok p =>
          simp only [hfv] at h
          cases hr : resolveList f rest p.2 with
          | error e => simp only [hr] at h; cases h
          | ok q' =>
              simp only [hr] at h
              injection h with h
              rw [← h]
              simp [ih p.2 q' hr]

theorem getObjectF_str_notcallable (dicts : List (String × List (String × PyVal)))
    (ign : List String) (n : Nat) (s : String) (st : BuildState) (d : Nat)
    (thisDict : List (String × PyVal)) (cv : PyVal)
    (h1 : s ∉ ign) (h2 : lookupA st.cache s = none)
    (h3 : s.data.take 7 = objectPrefixChars)
    (h4 : lookupA dicts (String.mk (s.data.drop 7)) = some thisDict)
    (h5 : ¬ d > 20) (h6 : lookupA thisDict "class" = some cv)
    (h7 : ∀ c, cv ≠ .pyclazz c) :
    getObjectF dicts ign (n + 1) (.pystr s) st d =
      .error (.classNotCallable (String.mk (s.data.drop 7))) := by
  cases cv with
  | pyclazz c => exact absurd rfl (h7 c)
  | pybool b => simp only [getObjectF]; simp [h1, h2, h3, h4, h5, h6]
  | pynone => simp only [getObjectF]; simp [h1, h2, h3, h4, h5, h6]
  | pyint k => simp only [getObjectF]; simp [h1, h2, h3, h4, h5, h6]
  | pyfloat fs => simp only [getObjectF]; simp [h1, h2, h3, h4, h5, h6]
  | pystr s2 => simp only [getObjectF]; simp [h1, h2, h3, h4, h5, h6]
  | pylist ws => simp only [getObjectF]; simp [h1, h2, h3, h4, h5, h6]
  | pytuple ws => simp only [getObjectF]; simp [h1, h2, h3, h4, h5, h6]
  | pyinst i => simp only [getObjectF]; simp [h1, h2, h3, h4, h5, h6]

theorem getObjectF_plain_pynone (dicts : List (String × List (String × PyVal)))
    (ign : List String) (n : Nat) (st : BuildState) (d : Nat) :
    getObjectF dicts ign (n + 1) .pynone st d = .ok (.pynone, st) := rfl

theorem getObjectF_plain_pyint (dicts : List (String × List (String × PyVal)))
    (ign : List String) (n : Nat) (k : Int) (st : BuildState) (d : Nat) :
    getObjectF dicts ign (n + 1) (.pyint k) st d = .ok (.pyint k, st) := rfl

theorem getObjectF_plain_pyfloat (dicts : List (String × List (String × PyVal)))
    (ign : List String) (n : Nat) (fs : String) (st : BuildState) (d : Nat) :
    getObjectF dicts ign (n + 1) (.pyfloat fs) st d = .ok (.pyfloat fs, st) := rfl

theorem getObjectF_plain_pyclazz (dicts : List (String × List (String × PyVal)))
    (ign : List String) (n : Nat) (c : Clazz) (st : BuildState) (d : Nat) :
    getObjectF dicts ign (n + 1) (.pyclazz c) st d = .ok (.pyclazz c, st) := rfl

theorem getObjectF_plain_pyinst (dicts : List (String × List (String × PyVal)))
    (ign : List String) (n : Nat) (i : Nat) (st : BuildState) (d : Nat) :
    getObjectF dicts ign (n + 1) (.pyinst i) st d = .ok (.pyinst i, st) := rfl

/-- Both grow properties follow when one step of resolution is a constant
independent of the fuel. -/
theorem grow_of_const (dicts : List (String × List (String × PyVal)))
    (ign : List String) (fuel : Nat) (v : PyVal) (st : BuildState) (d : Nat)
    (C : Except CfgError (PyVal × BuildState))
    (hC : C ≠ .error .fuelOut)
    (e1 : getObjectF dicts ign (fuel + 1) v st d = C)
    (e2 : getObjectF dicts ign (fuel + 1 + 1) v st d = C) :
    getObjectF dicts ign (fuel + 1) v st d ≠ .error .fuelOut ∧
    getObjectF dicts ign (fuel + 1 + 1) v st d = getObjectF dicts ign (fuel + 1) v st d :=
  ⟨e1 ▸ hC, by rw [e1, e2]⟩

/-- Fuel sufficiency and fuel monotonicity for `get_object`: with fuel
above the depth-and-size bound, resolution does not run out of fuel and
one more unit of fuel does not change the result. -/
theorem getObjectF_grow (dicts : List (String × List (String × PyVal)))
    (ign : List String) :
    ∀ (fuel : Nat) (v : PyVal) (st : BuildState) (d : Nat),
      (21 - d) * (2 * maxDictSize dicts + 2) + 2 * vsize v < fuel →
      getObjectF dicts ign fuel v st d ≠ .error .fuelOut ∧
      getObjectF dicts ign (fuel + 1) v st d = getObjectF dicts ign fuel v st d := by
  intro fuel
  induction fuel with
  | zero => intro v st d h; exact absurd h (Nat.not_lt_zero _)
  | succ fuel ih =>
      intro v st d h
      cases v with
      | pybool b =>
          exact grow_of_const dicts ign fuel (.pybool b) st d _ (by simp)
            (getObjectF_plain_pybool dicts ign fuel b st d)
            (getObjectF_plain_pybool dicts ign (fuel + 1) b st d)
      | pynone =>
          exact grow_of_const dicts ign fuel .pynone st d _ (by simp)
            (getObjectF_plain_pynone dicts ign fuel st d)
            (getObjectF_plain_pynone dicts ign (fuel + 1) st d)
      | pyint k =>
          exact grow_of_const dicts ign fuel (.pyint k) st d _ (by simp)
            (getObjectF_plain_pyint dicts ign fuel k st d)
            (getObjectF_plain_pyint dicts ign (fuel + 1) k st d)
      | pyfloat fs =>
          exact grow_of_const dicts ign fuel (.pyfloat fs) st d _ (by simp)
            (getObjectF_plain_pyfloat dicts ign fuel fs st d)
            (getObjectF_plain_pyfloat dicts ign (fuel + 1) fs st d)
      | pyclazz c =>
          exact grow_of_const dicts ign fuel (.pyclazz c) st d _ (by simp)
            (getObjectF_plain_pyclazz dicts ign fuel c st d)
            (getObjectF_plain_pyclazz dicts ign (fuel + 1) c st d)
      | pyinst i =>
          exact grow_of_const dicts ign fuel (.pyinst i) st d _ (by simp)
            (getObjectF_plain_pyinst dicts ign fuel i st d)
            (getObjectF_plain_pyinst dicts ign (fuel + 1) i st d)
      | pylist vs =>
          rw [show vsize (PyVal.pylist vs) = 1 + vlsize vs from rfl] at h
          have harith : ∀ w ∈ vs,
              (21 - (d + 1)) * (2 * maxDictSize dicts + 2) + 2 * vsize w < fuel := by
            intro w hw
            have hle : vsize w ≤ vlsize vs := vsize_mem_le hw
            have hmul : (21 - (d + 1)) * (2 * maxDictSize dicts + 2) ≤
                (21 - d) * (2 * maxDictSize dicts + 2) :=
              Nat.mul_le_mul_right _ (Nat.sub_le_sub_left (Nat.le_succ d) 21)
            generalize hA : (21 - d) * (2 * maxDictSize dicts + 2) = A at h hmul
            generalize hB : (21 - (d + 1)) * (2 * maxDictSize dicts + 2) = B at hmul ⊢
            omega
          have H : ∀ w ∈ vs, ∀ s2,
              getObjectF dicts ign fuel w s2 (d + 1) ≠ .error .fuelOut ∧
              getObjectF dicts ign (fuel + 1) w s2 (d + 1) =
                getObjectF dicts ign fuel w s2 (d + 1) :=
            fun w hw s2 => ih w s2 (d + 1) (harith w hw)
          obtain ⟨hne, heq⟩ := resolveList_grow
            (fun v s => getObjectF dicts ign fuel v s (d + 1))
            (fun v s => getObjectF dicts ign (fuel + 1) v s (d + 1)) vs st H
          constructor
          · rw [getObjectF_unfold_pylist dicts ign fuel vs st d]
            cases hr : resolveList
                (fun v s => getObjectF dicts ign fuel v s (d + 1)) vs st with
            | error e =>
                have he : e ≠ .fuelOut := fun hc => hne (hc ▸ hr)
                simp [he]
            | ok q => simp
          · rw [getObjectF_unfold_pylist dicts ign (fuel + 1) vs st d,
                getObjectF_unfold_pylist dicts ign fuel vs st d, heq]
      | pytuple vs =>
          rw [show vsize (PyVal.pytuple vs) = 1 + vlsize vs from rfl] at h
          have harith : ∀ w ∈ vs,
              (21 - (d + 1)) * (2 * maxDictSize dicts + 2) + 2 * vsize w < fuel := by
            intro w hw
            have hle : vsize w ≤ vlsize vs := vsize_mem_le hw
            have hmul : (21 - (d + 1)) * (2 * maxDictSize dicts + 2) ≤
                (21 - d) * (2 * maxDictSize dicts + 2) :=
              Nat.mul_le_mul_right _ (Nat.sub_le_sub_left (Nat.le_succ d) 21)
            generalize hA : (21 - d) * (2 * maxDictSize dicts + 2) = A at h hmul
            generalize hB : (21 - (d + 1)) * (2 * maxDictSize dicts + 2) = B at hmul ⊢
            omega
          have H : ∀ w ∈ vs, ∀ s2,
              getObjectF dicts ign fuel w s2 (d + 1) ≠ .error .fuelOut ∧
              getObjectF dicts ign (fuel + 1) w s2 (d + 1) =
                getObjectF dicts ign fuel w s2 (d + 1) :=
            fun w hw s2 => ih w s2 (d + 1) (harith w hw)
          obtain ⟨hne, heq⟩ := resolveList_grow
            (fun v s => getObjectF dicts ign fuel v s (d + 1))
            (fun v s => getObjectF dicts ign (fuel + 1) v s (d + 1)) vs st H
          constructor
          · rw [getObjectF_unfold_pytuple dicts ign fuel vs st d]
            cases hr : resolveList
                (fun v s => getObjectF dicts ign fuel v s (d + 1)) vs st with
            | error e =>
                have he : e ≠ .fuelOut := fun hc => hne (hc ▸ hr)
                simp [he]
            | ok q => simp
          · rw [getObjectF_unfold_pytuple dicts ign (fuel + 1) vs st d,
                getObjectF_unfold_pytuple dicts ign fuel vs st d, heq]
      | pystr s =>
          by_cases h1 : s ∈ ign
          · exact grow_of_const dicts ign fuel (.pystr s) st d _ (by simp)
              (getObjectF_str_ign dicts ign fuel s st d h1)
              (getObjectF_str_ign dicts ign (fuel + 1) s st d h1)
          · cases h2 : lookupA st.cache s with
            | some v0 =>
                exact grow_of_const dicts ign fuel (.pystr s) st d _ (by simp)
                  (getObjectF_str_cached dicts ign fuel s st d v0 h1 h2)
                  (getObjectF_str_cached dicts ign (fuel + 1) s st d v0 h1 h2)
            | none =>
                by_cases h3 : s.data.take 7 ≠ objectPrefixChars
                · exact grow_of_const dicts ign fuel (.pystr s) st d _ (by simp)
                    (getObjectF_str_plain dicts ign fuel s st d h1 h2 h3)
                    (getObjectF_str_plain dicts ign (fuel + 1) s st d h1 h2 h3)
                · rw [not_not] at h3
                  cases h4 : lookupA dicts (String.mk (s.data.drop 7)) with
                  | none =>
                      exact grow_of_const dicts ign fuel (.pystr s) st d _ (by simp)
                        (getObjectF_str_undef dicts ign fuel s st d h1 h2 h3 h4)
                        (getObjectF_str_undef dicts ign (fuel + 1) s st d h1 h2 h3 h4)
                  | some thisDict =>
                      by_cases h5 : d > 20
                      · exact grow_of_const dicts ign fuel (.pystr s) st d _ (by simp)
                          (getObjectF_str_deep dicts ign fuel s st d thisDict h1 h2 h3 h4 h5)
                          (getObjectF_str_deep dicts ign (fuel + 1) s st d thisDict h1 h2 h3 h4 h5)
                      · cases h6 : lookupA thisDict "class" with
                        | none =>
                            exact grow_of_const dicts ign fuel (.pystr s) st d _ (by simp)
                              (getObjectF_str_noclass dicts ign fuel s st d thisDict h1 h2 h3 h4 h5 h6)
                              (getObjectF_str_noclass dicts ign (fuel + 1) s st d thisDict h1 h2 h3 h4 h5 h6)
                        | some cv =>
                            cases cv with
                            | pyclazz clazz =>
                                have harith : ∀ w ∈ (thisDict.filter
                                    (fun kv => kv.1 ≠ "class")).map (fun kv => kv.2),
                                    (21 - (d + 1)) * (2 * maxDictSize dicts + 2) +
                                      2 * vsize w < fuel := by
                                  intro w hw
                                  have hw1 : vsize w ≤ dictSize thisDict :=
                                    vsize_filtered_le _ hw
                                  have hw2 : dictSize thisDict ≤ maxDictSize dicts :=
                                    lookupA_maxDictSize h4
                                  rw [show vsize (PyVal.pystr s) = 1 from rfl] at h
                                  have hsplit : (21 - d) * (2 * maxDictSize dicts + 2) =
                                      (21 - (d + 1)) * (2 * maxDictSize dicts + 2) +
                                        (2 * maxDictSize dicts + 2) := by
                                    rw [show 21 - d = (21 - (d + 1)) + 1 from by omega,
                                      Nat.succ_mul]
                                  generalize hA :
                                    (21 - d) * (2 * maxDictSize dicts + 2) = A at h hsplit
                                  generalize hB :
                                    (21 - (d + 1)) * (2 * maxDictSize dicts + 2) = B
                                    at hsplit ⊢
                                  omega
                                have H : ∀ w ∈ (thisDict.filter
                                    (fun kv => kv.1 ≠ "class")).map (fun kv => kv.2), ∀ s2,
                                    getObjectF dicts ign fuel w s2 (d + 1) ≠ .error .fuelOut ∧
                                    getObjectF dicts ign (fuel + 1) w s2 (d + 1) =
                                      getObjectF dicts ign fuel w s2 (d + 1) :=
                                  fun w hw s2 => ih w s2 (d + 1) (harith w hw)
                                obtain ⟨hne, heq⟩ := resolveList_grow
                                  (fun v s => getObjectF dicts ign fuel v s (d + 1))
                                  (fun v s => getObjectF dicts ign (fuel + 1) v s (d + 1))
                                  ((thisDict.filter (fun kv => kv.1 ≠ "class")).map
                                    (fun kv => kv.2)) st H
                                constructor
                                · rw [getObjectF_str_clazz dicts ign fuel s st d
                                    thisDict clazz h1 h2 h3 h4 h5 h6]
                                  cases hr : resolveList
                                      (fun v s => getObjectF dicts ign fuel v s (d + 1))
                                      ((thisDict.filter (fun kv => kv.1 ≠ "class")).map
                                        (fun kv => kv.2)) st with
                                  | error e =>
                                      have he : e ≠ .fuelOut := fun hc => hne (hc ▸ hr)
                                      simp [he]
                                  | ok q =>
                                      dsimp only
                                      cases hcs : checkArgsSpec (String.mk (s.data.drop 7))
                                          clazz ((thisDict.filter
                                            (fun kv => kv.1 ≠ "class")).map
                                              (fun kv => kv.1)) with
                                      | error e2 =>
                                          have he2 : e2 ≠ .fuelOut := fun hc =>
                                            checkArgsSpec_ne_fuelOut _ _ _ (hc ▸ hcs)
                                          simp [he2]
                                      | ok u =>
                                          dsimp only
                                          split <;> simp
                                · rw [getObjectF_str_clazz dicts ign (fuel + 1) s st d
                                      thisDict clazz h1 h2 h3 h4 h5 h6,
                                    getObjectF_str_clazz dicts ign fuel s st d
                                      thisDict clazz h1 h2 h3 h4 h5 h6, heq]
                            | pybool b =>
                                exact grow_of_const dicts ign fuel (.pystr s) st d _ (by simp)
                                  (getObjectF_str_notcallable dicts ign fuel s st d thisDict
                                    (.pybool b) h1 h2 h3 h4 h5 h6 (fun c hc => PyVal.noConfusion hc))
                                  (getObjectF_str_notcallable dicts ign (fuel + 1) s st d thisDict
                                    (.pybool b) h1 h2 h3 h4 h5 h6 (fun c hc => PyVal.noConfusion hc))
                            | pynone =>
                                exact grow_of_const dicts ign fuel (.pystr s) st d _ (by simp)
                                  (getObjectF_str_notcallable dicts ign fuel s st d thisDict
                                    .pynone h1 h2 h3 h4 h5 h6 (fun c hc => PyVal.noConfusion hc))
                                  (getObjectF_str_notcallable dicts ign (fuel + 1) s st d thisDict
                                    .pynone h1 h2 h3 h4 h5 h6 (fun c hc => PyVal.noConfusion hc))
                            | pyint k =>
                                exact grow_of_const dicts ign fuel (.pystr s) st d _ (by simp)
                                  (getObjectF_str_notcallable dicts ign fuel s st d thisDict
                                    (.pyint k) h1 h2 h3 h4 h5 h6 (fun c hc => PyVal.noConfusion hc))
                                  (getObjectF_str_notcallable dicts ign (fuel + 1) s st d thisDict
                                    (.pyint k) h1 h2 h3 h4 h5 h6 (fun c hc => PyVal.noConfusion hc))
                            | pyfloat fs =>
                                exact grow_of_const dicts ign fuel (.pystr s) st d _ (by simp)
                                  (getObjectF_str_notcallable dicts ign fuel s st d thisDict
                                    (.pyfloat fs) h1 h2 h3 h4 h5 h6 (fun c hc => PyVal.noConfusion hc))
                                  (getObjectF_str_notcallable dicts ign (fuel + 1) s st d thisDict
                                    (.pyfloat fs) h1 h2 h3 h4 h5 h6 (fun c hc => PyVal.noConfusion hc))
                            | pystr s2 =>
                                exact grow_of_const dicts ign fuel (.pystr s) st d _ (by simp)
                                  (getObjectF_str_notcallable dicts ign fuel s st d thisDict
                                    (.pystr s2) h1 h2 h3 h4 h5 h6 (fun c hc => PyVal.noConfusion hc))
                                  (getObjectF_str_notcallable dicts ign (fuel + 1) s st d thisDict
                                    (.pystr s2) h1 h2 h3 h4 h5 h6 (fun c hc => PyVal.noConfusion hc))
                            | pylist ws =>
                                exact grow_of_const dicts ign fuel (.pystr s) st d _ (by simp)
                                  (getObjectF_str_notcallable dicts ign fuel s st d thisDict
                                    (.pylist ws) h1 h2 h3 h4 h5 h6 (fun c hc => PyVal.noConfusion hc))
                                  (getObjectF_str_notcallable dicts ign (fuel + 1) s st d thisDict
                                    (.pylist ws) h1 h2 h3 h4 h5 h6 (fun c hc => PyVal.noConfusion hc))
                            | pytuple ws =>
                                exact grow_of_const dicts ign fuel (.pystr s) st d _ (by simp)
                                  (getObjectF_str_notcallable dicts ign fuel s st d thisDict
                                    (.pytuple ws) h1 h2 h3 h4 h5 h6 (fun c hc => PyVal.noConfusion hc))
                                  (getObjectF_str_notcallable dicts ign (fuel + 1) s st d thisDict
                                    (.pytuple ws) h1 h2 h3 h4 h5 h6 (fun c hc => PyVal.noConfusion hc))
                            | pyinst i =>
                                exact grow_of_const dicts ign fuel (.pystr s) st d _ (by simp)
                                  (getObjectF_str_notcallable dicts ign fuel s st d thisDict
                                    (.pyinst i) h1 h2 h3 h4 h5 h6 (fun c hc => PyVal.noConfusion hc))
                                  (getObjectF_str_notcallable dicts ign (fuel + 1) s st d thisDict
                                    (.pyinst i) h1 h2 h3 h4 h5 h6 (fun c hc => PyVal.noConfusion hc))

/-- Above the fuel bound the result of `get_object` no longer depends on
the fuel. -/
theorem getObjectF_stable (dicts : List (String × List (String × PyVal)))
    (ign : List String) (v : PyVal) (st : BuildState) (d : Nat)
    (f₁ f₂ : Nat)
    (hb : (21 - d) * (2 * maxDictSize dicts + 2) + 2 * vsize v < f₁)
    (hle : f₁ ≤ f₂) :
    getObjectF dicts ign f₂ v st d = getObjectF dicts ign f₁ v st d := by
  induction f₂, hle using Nat.le_induction with
  | base => rfl
  | succ k hk ih =>
      rw [← ih]
      exact (getObjectF_grow dicts ign k v st d (lt_of_lt_of_le hb hk)).2

/-- A state predicate preserved by each element call is preserved by the
whole list resolution. -/
theorem resolveList_preserve
    (f : PyVal → BuildState → Except CfgError (PyVal × BuildState))
    (P : BuildState → Prop)
    (hf : ∀ v st, P st → ∀ r st₂, f v st = .ok (r, st₂) → P st₂) :
    ∀ (vs : List PyVal) (st : BuildState), P st →
      ∀ (rs : List PyVal) (st₂ : BuildState),
        resolveList f vs st = .ok (rs, st₂) → P st₂ := by
  intro vs
  induction vs with
  | nil =>
      intro st hP rs st₂ h
      rw [resolveList] at h
      simp at h
      exact h.2 ▸ hP
  | cons v rest ih =>
      intro st hP rs st₂ h
      rw [resolveList] at h
      cases hfv : f v st with
      | error e => simp only [hfv] at h; cases h
      | ok p =>
          simp only [hfv] at h
          cases hr : resolveList f rest p.2 with
          | error e => simp only [hr] at h; cases h
          | ok q =>
              simp only [hr] at h
              simp at h
              exact h.2 ▸ ih p.2 (hf v st hP p.1 p.2 hfv) q.1 q.2 hr

/-- Resolution never drops or changes an existing cache binding whose key
is not in the ignore set: the only overwriting store is the construction
store, and a constructed marker had to miss the cache on entry. -/
theorem getObjectF_cache_preserve (dicts : List (String × List (String × PyVal)))
    (ign : List String) (x : String) (r0 : PyVal) (hxi : x ∉ ign) :
    ∀ (fuel : Nat) (v : PyVal) (st : BuildState) (d : Nat)
      (res : PyVal) (st₂ : BuildState),
      lookupA st.cache x = some r0 →
      getObjectF dicts ign fuel v st d = .ok (res, st₂) →
      lookupA st₂.cache x = some r0 := by
  intro fuel
  induction fuel with
  | zero =>
      intro v st d res st₂ hx h
      rw [getObjectF_zero] at h
      cases h
  | succ n ih =>
      intro v st d res st₂ hx h
      cases v with
      | pybool b =>
          rw [getObjectF_plain_pybool] at h
          simp at h
          exact h.2 ▸ hx
      | pynone =>
          rw [getObjectF_plain_pynone] at h
          simp at h
          exact h.2 ▸ hx
      | pyint k =>
          rw [getObjectF_plain_pyint] at h
          simp at h
          exact h.2 ▸ hx
      | pyfloat fs =>
          rw [getObjectF_plain_pyfloat] at h
          simp at h
          exact h.2 ▸ hx
      | pyclazz c =>
          rw [getObjectF_plain_pyclazz] at h
          simp at h
          exact h.2 ▸ hx
      | pyinst i =>
          rw [getObjectF_plain_pyinst] at h
          simp at h
          exact h.2 ▸ hx
      | pylist vs =>
          rw [getObjectF_unfold_pylist] at h
          cases hr : resolveList
              (fun v s => getObjectF dicts ign n v s (d + 1)) vs st with
          | error e => simp only [hr] at h; cases h
          | ok q =>
              simp only [hr] at h
              simp at h
              exact h.2 ▸ resolveList_preserve _
                (fun s2 => lookupA s2.cache x = some r0)
                (fun v2 st2 hP r2 st3 h2 => ih v2 st2 (d + 1) r2 st3 hP h2)
                vs st hx q.1 q.2 hr
      | pytuple vs =>
          rw [getObjectF_unfold_pytuple] at h
          cases hr : resolveList
              (fun v s => getObjectF dicts ign n v s (d + 1)) vs st with
          | error e => simp only [hr] at h; cases h
          | ok q =>
              simp only [hr] at h
              simp at h
              exact h.2 ▸ resolveList_preserve _
                (fun s2 => lookupA s2.cache x = some r0)
                (fun v2 st2 hP r2 st3 h2 => ih v2 st2 (d + 1) r2 st3 hP h2)
                vs st hx q.1 q.2 hr
      | pystr s =>
          by_cases h1 : s ∈ ign
          · rw [getObjectF_str_ign dicts ign n s st d h1] at h
            simp at h
            have hxs : x ≠ s := fun hh => hxi (hh ▸ h1)
            rw [← h.2]
            show lookupA (setA st.cache s .pynone) x = some r0
            rw [lookupA_setA_ne _ _ _ _ hxs]
            exact hx
          · cases h2 : lookupA st.cache s with
            | some v0 =>
                rw [getObjectF_str_cached dicts ign n s st d v0 h1 h2] at h
                simp at h
                exact h.2 ▸ hx
            | none =>
                by_cases h3 : s.data.take 7 ≠ objectPrefixChars
                · rw [getObjectF_str_plain dicts ign n s st d h1 h2 h3] at h
                  simp at h
                  exact h.2 ▸ hx
                · rw [not_not] at h3
                  cases h4 : lookupA dicts (String.mk (s.data.drop 7)) with
                  | none =>
                      rw [getObjectF_str_undef dicts ign n s st d h1 h2 h3 h4] at h
                      cases h
                  | some thisDict =>
                      by_cases h5 : d > 20
                      · rw [getObjectF_str_deep dicts ign n s st d thisDict
                          h1 h2 h3 h4 h5] at h
                        cases h
                      · cases h6 : lookupA thisDict "class" with
                        | none =>
                            rw [getObjectF_str_noclass dicts ign n s st d thisDict
                              h1 h2 h3 h4 h5 h6] at h
                            cases h
                        | some cv =>
                            by_cases hcv : ∀ c : Clazz, cv ≠ .pyclazz c
                            · rw [getObjectF_str_notcallable dicts ign n s st d thisDict
                                cv h1 h2 h3 h4 h5 h6 hcv] at h
                              cases h
                            · push_neg at hcv
                              obtain ⟨clazz, rfl⟩ := hcv
                              rw [getObjectF_str_clazz dicts ign n s st d thisDict
                                clazz h1 h2 h3 h4 h5 h6] at h
                              cases hr : resolveList
                                  (fun v s => getObjectF dicts ign n v s (d + 1))
                                  ((thisDict.filter (fun kv => kv.1 ≠ "class")).map
                                    (fun kv => kv.2)) st with
                              | error e => simp only [hr] at h; cases h
                              | ok q =>
                                  simp only [hr] at h
                                  cases hcs : checkArgsSpec (String.mk (s.data.drop 7))
                                      clazz ((thisDict.filter
                                        (fun kv => kv.1 ≠ "class")).map
                                          (fun kv => kv.1)) with
                                  | error e2 => simp only [hcs] at h; cases h
                                  | ok u =>
                                      simp only [hcs] at h
                                      by_cases hcall : pyCallOk clazz
                                          ((thisDict.filter
                                            (fun kv => kv.1 ≠ "class")).map
                                              (fun kv => kv.1)) = true
                                      · rw [if_pos hcall] at h
                                        simp at h
                                        have hq : lookupA q.2.cache x = some r0 :=
                                          resolveList_preserve _
                                            (fun s2 => lookupA s2.cache x = some r0)
                                            (fun v2 st2 hP r2 st3 h2 =>
                                              ih v2 st2 (d + 1) r2 st3 hP h2)
                                            _ st hx q.1 q.2 hr
                                        have hxs : x ≠ s := fun hh => by
                                          rw [hh] at hx
                                          rw [hx] at h2
                                          cases h2
                                        rw [← h.2]
                                        show lookupA
                                          (setA q.2.cache s (.pyinst q.2.nextId)) x = some r0
                                        rw [lookupA_setA_ne _ _ _ _ hxs]
                                        exact hq
                                      · rw [if_neg hcall] at h
                                        cases h

/-- A successful resolution of an object-reference marker leaves the
result in the cache under the full marker string. -/
theorem getObjectF_marker_cached (dicts : List (String × List (String × PyVal)))
    (ign : List String) :
    ∀ (fuel : Nat) (s : String) (st : BuildState) (d : Nat)
      (r : PyVal) (st' : BuildState),
      s.data.take 7 = objectPrefixChars →
      getObjectF dicts ign fuel (.pystr s) st d = .ok (r, st') →
      lookupA st'.cache s = some r := by
  intro fuel s st d r st' hpre h
  cases fuel with
  | zero => rw [getObjectF_zero] at h; cases h
  | succ n =>
      by_cases h1 : s ∈ ign
      · rw [getObjectF_str_ign dicts ign n s st d h1] at h
        simp at h
        rw [← h.1, ← h.2]
        show lookupA (setA st.cache s .pynone) s = some .pynone
        exact lookupA_setA_self _ _ _
      · cases h2 : lookupA st.cache s with
        | some v0 =>
            rw [getObjectF_str_cached dicts ign n s st d v0 h1 h2] at h
            simp at h
            rw [← h.1, ← h.2]
            exact h2
        | none =>
            cases h4 : lookupA dicts (String.mk (s.data.drop 7)) with
            | none =>
                rw [getObjectF_str_undef dicts ign n s st d h1 h2 hpre h4] at h
                cases h
            | some thisDict =>
                by_cases h5 : d > 20
                · rw [getObjectF_str_deep dicts ign n s st d thisDict
                    h1 h2 hpre h4 h5] at h
                  cases h
                · cases h6 : lookupA thisDict "class" with
                  | none =>
                      rw [getObjectF_str_noclass dicts ign n s st d thisDict
                        h1 h2 hpre h4 h5 h6] at h
                      cases h
                  | some cv =>
                      by_cases hcv : ∀ c : Clazz, cv ≠ .pyclazz c
                      · rw [getObjectF_str_notcallable dicts ign n s st d thisDict
                          cv h1 h2 hpre h4 h5 h6 hcv] at h
                        cases h
                      · push_neg at hcv
                        obtain ⟨clazz, rfl⟩ := hcv
                        rw [getObjectF_str_clazz dicts ign n s st d thisDict
                          clazz h1 h2 hpre h4 h5 h6] at h
                        cases hr : resolveList
                            (fun v s => getObjectF dicts ign n v s (d + 1))
                            ((thisDict.filter (fun kv => kv.1 ≠ "class")).map
                              (fun kv => kv.2)) st with
                        | error e => simp only [hr] at h; cases h
                        | ok q =>
                            simp only [hr] at h
                            cases hcs : checkArgsSpec (String.mk (s.data.drop 7))
                                clazz ((thisDict.filter
                                  (fun kv => kv.1 ≠ "class")).map
                                    (fun kv => kv.1)) with
                            | error e2 => simp only [hcs] at h; cases h
                            | ok u =>
                                simp only [hcs] at h
                                by_cases hcall : pyCallOk clazz
                                    ((thisDict.filter
                                      (fun kv => kv.1 ≠ "class")).map
                                        (fun kv => kv.1)) = true
                                · rw [if_pos hcall] at h
                                  simp at h
                                  rw [← h.1, ← h.2]
                                  show lookupA
                                    (setA q.2.cache s (.pyinst q.2.nextId)) s =
                                      some (.pyinst q.2.nextId)
                                  exact lookupA_setA_self _ _ _
                                · rw [if_neg hcall] at h
                                  cases h

/-- A bracket-mismatch error of the splitter reports the index, relative
to the scan start, of the offending closing bracket. -/
theorem splitAux_bracketEnd :
    ∀ (cs : List Char) (i0 : Nat) (op buf : List Char) (items : List String)
      (c : Char) (i : Nat),
      splitAux cs i0 op buf items = .error (.bracketEnd c i) →
      ∃ k, i = i0 + k ∧ cs.get? k = some c ∧ (c = ')' ∨ c = ']') := by
  intro cs
  induction cs with
  | nil =>
      intro i0 op buf items c i h
      simp only [splitAux] at h
      exact Except.noConfusion h
  | cons c0 rest ih =>
      intro i0 op buf items c i h
      rw [splitAux.eq_def] at h
      dsimp only at h
      by_cases hc1 : c0 = ',' ∧ op = []
      · rw [if_pos hc1] at h
        obtain ⟨k, hk, hg, hcc⟩ := ih _ _ _ _ _ _ h
        exact ⟨k + 1, by omega, by simpa using hg, hcc⟩
      · rw [if_neg hc1] at h
        by_cases hc2 : c0 = ' ' ∧ buf = []
        · rw [if_pos hc2] at h
          obtain ⟨k, hk, hg, hcc⟩ := ih _ _ _ _ _ _ h
          exact ⟨k + 1, by omega, by simpa using hg, hcc⟩
        · rw [if_neg hc2] at h
          by_cases hc3 : c0 = '(' ∨ c0 = '['
          · rw [if_pos hc3] at h
            obtain ⟨k, hk, hg, hcc⟩ := ih _ _ _ _ _ _ h
            exact ⟨k + 1, by omega, by simpa using hg, hcc⟩
          · rw [if_neg hc3] at h
            by_cases hc4 : c0 = ')'
            · rw [if_pos hc4] at h
              cases op with
              | nil => simp at h
              | cons o os =>
                  dsimp only at h
                  by_cases ho : o ≠ '('
                  · rw [if_pos ho] at h
                    simp at h
                    refine ⟨0, by omega, ?_, Or.inl h.1.symm⟩
                    rw [List.get?_cons_zero, hc4, h.1]
                  · rw [if_neg ho] at h
                    obtain ⟨k, hk, hg, hcc⟩ := ih _ _ _ _ _ _ h
                    exact ⟨k + 1, by omega, by simpa using hg, hcc⟩
            · rw [if_neg hc4] at h
              by_cases hc5 : c0 = ']'
              · rw [if_pos hc5] at h
                cases op with
                | nil => simp at h
                | cons o os =>
                    dsimp only at h
                    by_cases ho : o ≠ '['
                    · rw [if_pos ho] at h
                      simp at h
                      refine ⟨0, by omega, ?_, Or.inr h.1.symm⟩
                      rw [List.get?_cons_zero, hc5, h.1]
                    · rw [if_neg ho] at h
                      obtain ⟨k, hk, hg, hcc⟩ := ih _ _ _ _ _ _ h
                      exact ⟨k + 1, by omega, by simpa using hg, hcc⟩
              · rw [if_neg hc5] at h
                obtain ⟨k, hk, hg, hcc⟩ := ih _ _ _ _ _ _ h
                exact ⟨k + 1, by omega, by simpa using hg, hcc⟩

/-- `split_on_commas` mismatch errors carry the 0-based index of the
offending closing bracket in the input string. -/
theorem splitOnCommas_bracketEnd (s : String) (c : Char) (i : Nat)
    (h : splitOnCommas s = .error (.bracketEnd c i)) :
    s.data.get? i = some c ∧ (c = ')' ∨ c = ']') := by
  obtain ⟨k, hk, hg, hcc⟩ := splitAux_bracketEnd s.data 0 [] [] [] c i h
  subst hk
  refine ⟨?_, hcc⟩
  simpa using hg

/-- Every error raised while processing one line carries that line's
0-based index. -/
theorem processLine_errLine (reg : Registry) (ts : String) (i : Nat)
    (st : ParseState) (raw : String) (e : CfgError)
    (h : processLine reg ts i st raw = .error e) : errLine e = some i := by
  unfold processLine at h
  dsimp only at h
  split at h
  · cases h
  · split at h
    · cases h
    · split at h
      · split at h
        · injection h with h2
          subst h2
          rfl
        · cases h
      · split at h
        · split at h
          · injection h with h2
            subst h2
            rfl
          · split at h
            · injection h with h2
              subst h2
              rfl
            · split at h
              · injection h with h2
                subst h2
                rfl
              · split at h
                · injection h with h2
                  subst h2
                  rfl
                · cases h
        · injection h with h2
          subst h2
          rfl

/-- Any parse failure of the line loop comes from `processLine` on the
`k`-th remaining line, at absolute index `i + k`. -/
theorem getConfigDictsAux_err (reg : Registry) (ts : String) :
    ∀ (lines : List String) (i : Nat) (st : ParseState) (e : CfgError),
      getConfigDictsAux reg ts i st lines = .error e →
      ∃ k l st', lines.get? k = some l ∧
        processLine reg ts (i + k) st' l = .error e := by
  intro lines
  induction lines with
  | nil =>
      intro i st e h
      rw [getConfigDictsAux] at h
      cases h
  | cons l ls ih =>
      intro i st e h
      rw [getConfigDictsAux] at h
      cases hp : processLine reg ts i st l with
      | error e2 =>
          simp only [hp] at h
          injection h with h2
          subst h2
          exact ⟨0, l, st, rfl, by simpa using hp⟩
      | ok st2 =>
          simp only [hp] at h
          obtain ⟨k, l2, st3, hg, hp2⟩ := ih (i + 1) st2 e h
          refine ⟨k + 1, l2, st3, by simpa using hg, ?_⟩
          rw [show i + (k + 1) = i + 1 + k from by omega]
          exact hp2

/-- C1: for the two-section reference cycle (`a`'s arguments reference
`<b>` and `b`'s reference `<a>`), resolving either marker at depth 0
fails with the depth-exceeded error, for every sufficiently large fuel
(the result is fuel-independent, so the recursion is bounded and the
error is exactly the `depth > 20` guard firing); in general resolution
never exhausts fuel above the explicit bound, so it never recurses
unboundedly; and the pure 21-section reference chain, whose deepest call
runs at depth 20, is not rejected by the guard but resolves fully. -/
theorem claim1_cycle_depth_bound :
    (∀ fuel, 200 ≤ fuel →
      getObjectF cycleDoc [] fuel (.pystr "object:a") st0 0 =
        .error .depthExceeded) ∧
    (∀ fuel, 200 ≤ fuel →
      getObjectF cycleDoc [] fuel (.pystr "object:b") st0 0 =
        .error .depthExceeded) ∧
    (∀ (dicts : List (String × List (String × PyVal))) (ign : List String)
      (fuel : Nat) (v : PyVal) (st : BuildState) (d : Nat),
      (21 - d) * (2 * maxDictSize dicts + 2) + 2 * vsize v < fuel →
      getObjectF dicts ign fuel v st d ≠ .error .fuelOut) ∧
    (∃ st', getObjectF chainDoc [] 200 (.pystr "object:c0") st0 0 =
      .ok (.pyinst 20, st')) := by
  refine ⟨?_, ?_, ?_, ⟨_, rfl⟩⟩
  · intro fuel hf
    rw [getObjectF_stable cycleDoc [] (.pystr "object:a") st0 0 200 fuel
      (by decide) hf]
    rfl
  · intro fuel hf
    rw [getObjectF_stable cycleDoc [] (.pystr "object:b") st0 0 200 fuel
      (by decide) hf]
    rfl
  · intro dicts ign fuel v st d hb
    exact (getObjectF_grow dicts ign fuel v st d hb).1

/-- Witness for C1 at concrete inputs. -/
theorem claim1_cycle_depth_bound_witness :
    getObjectF cycleDoc [] 200 (.pystr "object:a") st0 0 =
      .error .depthExceeded ∧
    getObjectF [] [] 100 (.pyint 5) st0 3 ≠ .error .fuelOut :=
  ⟨claim1_cycle_depth_bound.1 200 (le_refl 200),
   claim1_cycle_depth_bound.2.2.1 [] [] 100 (.pyint 5) st0 3 (by decide)⟩

/-- C2: a successful resolution of an object-reference marker stores the
result in the cache under the full marker string before returning it; no
later resolution removes or changes a cache binding whose key is not
ignored; a marker already bound in the cache resolves to the identical
bound instance with the state unchanged (so no second construction); and
the load of a document whose two top-level keys both reference `<shared>`
yields the identical instance for both keys, with `shared` constructed
exactly once. -/
theorem claim2_singleton_sharing :
    (∀ (dicts : List (String × List (String × PyVal))) (ign : List String)
      (fuel : Nat) (s : String) (st : BuildState) (d : Nat) (r : PyVal)
      (st' : BuildState),
      s.data.take 7 = objectPrefixChars →
      getObjectF dicts ign fuel (.pystr s) st d = .ok (r, st') →
      lookupA st'.cache s = some r) ∧
    (∀ (dicts : List (String × List (String × PyVal))) (ign : List String)
      (x : String) (r0 : PyVal) (fuel : Nat) (v : PyVal) (st : BuildState)
      (d : Nat) (res : PyVal) (st₂ : BuildState),
      x ∉ ign →
      lookupA st.cache x = some r0 →
      getObjectF dicts ign fuel v st d = .ok (res, st₂) →
      lookupA st₂.cache x = some r0) ∧
    (∀ (dicts : List (String × List (String × PyVal))) (ign : List String)
      (fuel : Nat) (s : String) (st : BuildState) (d : Nat) (r : PyVal),
      s ∉ ign →
      lookupA st.cache s = some r →
      getObjectF dicts ign (fuel + 1) (.pystr s) st d = .ok (r, st)) ∧
    loadConfigRun regK "TS"
        ["[main]", "k1=<shared>", "k2=<shared>", "[shared]", "class=m.K"] [] =
      .ok ([("k1", .pyinst 0), ("k2", .pyinst 0)],
        ⟨[("object:shared", .pyinst 0)], 1, ["shared"]⟩) := by
  refine ⟨?_, ?_, ?_, rfl⟩
  · intro dicts ign fuel s st d r st' hp h
    exact getObjectF_marker_cached dicts ign fuel s st d r st' hp h
  · intro dicts ign x r0 fuel v st d res st₂ hxi hx h
    exact getObjectF_cache_preserve dicts ign x r0 hxi fuel v st d res st₂ hx h
  · intro dicts ign fuel s st d r h1 h2
    exact getObjectF_str_cached dicts ign fuel s st d r h1 h2

/-- Witness for C2 at concrete inputs. -/
theorem claim2_singleton_sharing_witness :
    lookupA (⟨[("object:foo", PyVal.pyinst 0)], 1, ["foo"]⟩ :
      BuildState).cache "object:foo" = some (.pyinst 0) ∧
    getObjectF fooDoc [] 10 (.pystr "object:foo")
        ⟨[("object:foo", .pyinst 0)], 1, ["foo"]⟩ 0 =
      .ok (.pyinst 0, ⟨[("object:foo", .pyinst 0)], 1, ["foo"]⟩) :=
  ⟨claim2_singleton_sharing.1 fooDoc [] 50 "object:foo" st0 0 (.pyinst 0)
      ⟨[("object:foo", .pyinst 0)], 1, ["foo"]⟩ (by decide) rfl,
   claim2_singleton_sharing.2.2.1 fooDoc [] 9 "object:foo"
      ⟨[("object:foo", .pyinst 0)], 1, ["foo"]⟩ 0 (.pyinst 0)
      (by decide) rfl⟩

/-- C3 (code bug): for a type with zero defaulted parameters the Python
slice `args[1:-len(defaults)]` is `args[1:-0] == args[1:0] == []`, so the
computed required-parameter set is empty and omitting a required argument
raises no missing-argument error; the constructor call then fails and is
wrapped as a build error instead.  With one defaulted parameter the
required set is computed as intended. -/
theorem claim3_zero_defaults_slice_bug :
    requiredOf c3Clazz = [] ∧
    pySliceNeg ["self", "a"] 1 0 = [] ∧
    getObjectF c3Doc [] 50 (.pystr "object:x") st0 0 =
      .error (.buildWrap "x" (.typeError "C3")) ∧
    getObjectF c3Doc [] 50 (.pystr "object:x") st0 0 ≠
      .error (.missingArgs "x" ["a"]) ∧
    requiredOf c4Clazz = ["a"] :=
  ⟨rfl, rfl, rfl,
   by simp [show getObjectF c3Doc [] 50 (.pystr "object:x") st0 0 =
      .error (.buildWrap "x" (.typeError "C3")) from rfl],
   rfl⟩

/-- C4 counterexample: the object omits the required `a` and supplies the
undeclared `z`; the raised error names only the missing set `["a"]` — the
unexpected name `z` is not part of the diagnostic, so missing and
unexpected are not reported together in one error. -/
theorem claim4_counterexample :
    getObjectF c4Doc [] 50 (.pystr "object:x") st0 0 =
      .error (.missingArgs "x" ["a"]) ∧
    "z" ∉ ["a"] := ⟨rfl, by decide⟩

/-- C4 amended: the validator reports the unexpected set only when the
leftover required set is empty, and a missing-args error names exactly the
non-empty leftover required set; a concrete both-nonempty input yields the
missing-only error. -/
theorem claim4_amended :
    (∀ (name : String) (c : Clazz) (keys : List String) (ex : List String),
      checkArgsSpec name c keys = .error (.unexpectedArgs name ex) →
      (keys.foldl (scanArg c.specArgs) (requiredOf c, [])).1 = []) ∧
    (∀ (name : String) (c : Clazz) (keys : List String) (m : List String),
      checkArgsSpec name c keys = .error (.missingArgs name m) →
      m = (keys.foldl (scanArg c.specArgs) (requiredOf c, [])).1 ∧
      (keys.foldl (scanArg c.specArgs) (requiredOf c, [])).1 ≠ []) ∧
    getObjectF c4Doc [] 50 (.pystr "object:x") st0 0 =
      .error (.missingArgs "x" ["a"]) := by
  refine ⟨?_, ?_, rfl⟩
  · intro name c keys ex h
    unfold checkArgsSpec at h
    split at h
    · cases h
    · split at h
      · simp at h
      · dsimp only at h
        split at h
        · simp at h
        · split at h
          · rename_i hne hadd
            rw [not_not] at hne
            exact hne
          · cases h
  · intro name c keys m h
    unfold checkArgsSpec at h
    split at h
    · cases h
    · split at h
      · simp at h
      · dsimp only at h
        split at h
        · rename_i hrem
          simp only [Except.error.injEq, CfgError.missingArgs.injEq] at h
          exact ⟨h.2.symm, hrem⟩
        · split at h
          · simp at h
          · cases h

/-- Witness for C4's amended statement at a concrete input. -/
theorem claim4_amended_witness :
    (["a", "z"].foldl (scanArg c4Clazz.specArgs) (requiredOf c4Clazz, [])).1 = [] :=
  claim4_amended.1 "x" c4Clazz ["a", "z"] ["z"] rfl

/-- C5 counterexample: resolving a one-element tuple yields a list, not a
tuple — the sequence kind is not preserved. -/
theorem claim5_counterexample :
    getObjectF [] [] 5 (.pytuple [.pyint 1]) st0 0 =
      .ok (.pylist [.pyint 1], st0) ∧
    PyVal.pylist [.pyint 1] ≠ PyVal.pytuple [.pyint 1] :=
  ⟨rfl, fun h => PyVal.noConfusion h⟩

/-- C5 amended: a tuple resolves exactly like the list of its members
(both through the same element-wise comprehension), and a successful
resolution of a list value returns a list of the same length — so lists
stay lists but tuples also come back as lists. -/
theorem claim5_amended (dicts : List (String × List (String × PyVal)))
    (ign : List String) (fuel : Nat) (vs : List PyVal) (st : BuildState)
    (d : Nat) :
    getObjectF dicts ign (fuel + 1) (.pytuple vs) st d =
      getObjectF dicts ign (fuel + 1) (.pylist vs) st d ∧
    (∀ r st', getObjectF dicts ign (fuel + 1) (.pylist vs) st d = .ok (r, st') →
      ∃ ws, r = .pylist ws ∧ ws.length = vs.length) := by
  constructor
  · rw [getObjectF_unfold_pytuple, getObjectF_unfold_pylist]
  · intro r st' h
    rw [getObjectF_unfold_pylist] at h
    cases hr : resolveList (fun v s => getObjectF dicts ign fuel v s (d + 1))
        vs st with
    | error e => simp only [hr] at h; cases h
    | ok q =>
        simp only [hr] at h
        simp at h
        exact ⟨q.1, h.1.symm, resolveList_length _ vs st q hr⟩

/-- Witness for C5's amended statement at a concrete input. -/
theorem claim5_amended_witness :
    ∃ ws, PyVal.pylist [PyVal.pyint 1] = .pylist ws ∧
      ws.length = [PyVal.pyint 1].length :=
  (claim5_amended [] [] 4 [.pyint 1] st0 0).2 (.pylist [.pyint 1]) st0 rfl

/-- C6 counterexample: the bare name `foo` is in the ignore set, yet the
reference `object:foo` is constructed anyway (`built` records it) and the
returned value is the new instance, not null — because the code compares
the entire value string, not the referenced name, with the ignore set. -/
theorem claim6_counterexample :
    getObjectF fooDoc ["foo"] 50 (.pystr "object:foo") st0 0 =
      .ok (.pyinst 0, ⟨[("object:foo", .pyinst 0)], 1, ["foo"]⟩) ∧
    PyVal.pyinst 0 ≠ PyVal.pynone :=
  ⟨rfl, fun h => PyVal.noConfusion h⟩

/-- C6 amended: resolution skips construction exactly when the whole value
string (e.g. the full marker `"object:foo"`) is a member of the ignore
set, recording null in the cache under that full string; putting the
marker string itself in the ignore set does suppress construction. -/
theorem claim6_amended :
    (∀ (dicts : List (String × List (String × PyVal))) (ign : List String)
      (fuel : Nat) (s : String) (st : BuildState) (d : Nat), s ∈ ign →
      getObjectF dicts ign (fuel + 1) (.pystr s) st d =
        .ok (.pynone, ⟨setA st.cache s .pynone, st.nextId, st.built⟩)) ∧
    getObjectF fooDoc ["object:foo"] 50 (.pystr "object:foo") st0 0 =
      .ok (.pynone, ⟨[("object:foo", .pynone)], 0, []⟩) :=
  ⟨fun dicts ign fuel s st d h1 => getObjectF_str_ign dicts ign fuel s st d h1,
   rfl⟩

/-- Witness for C6's amended statement at a concrete input. -/
theorem claim6_amended_witness :
    getObjectF [] ["x"] 3 (.pystr "x") st0 0 =
      .ok (.pynone, ⟨setA st0.cache "x" .pynone, st0.nextId, st0.built⟩) :=
  claim6_amended.1 [] ["x"] 2 "x" st0 0 (by decide)

/-- C7 (code bug): the `LIST` pattern captures only up to the first `]`,
so the nested literal `[[1,2],[3,4]]` is split on the truncated text
`[1,2` and formats to a one-element list containing the raw string
`"[1,2"`, not the list of its two top-level items; the homogeneity check
itself behaves as claimed on flat lists. -/
theorem claim7_list_regex_truncation :
    listMatch "[[1,2],[3,4]]" = some "[1,2" ∧
    formatValue [] "[[1,2],[3,4]]" = .ok (.pylist [.pystr "[1,2"]) ∧
    formatValue [] "[1,2,3]" =
      .ok (.pylist [.pyint 1, .pyint 2, .pyint 3]) ∧
    formatValue [] "[1,abc]" = .error (.heteroList [.intT, .strT]) :=
  ⟨rfl, rfl, rfl, rfl⟩

/-- C8 counterexample: an opened bracket left unclosed at the end of the
input is not detected — the splitter returns the items instead of
failing. -/
theorem claim8_counterexample : splitOnCommas "(1" = .ok ["(1"] := rfl

/-- C8 amended: a closing bracket that does not match the most recently
opened one fails with the bracket-mismatch error carrying the 0-based
index of that character; a closing bracket with no bracket open fails with
the pop-from-empty-list error (no position); unclosed opened brackets at
end of input are not detected. -/
theorem claim8_amended :
    (∀ (s : String) (c : Char) (i : Nat),
      splitOnCommas s = .error (.bracketEnd c i) →
      s.data.get? i = some c ∧ (c = ')' ∨ c = ']')) ∧
    splitOnCommas "(]" = .error (.bracketEnd ']' 1) ∧
    splitOnCommas "a)" = .error .popEmpty ∧
    splitOnCommas "[(]" = .error (.bracketEnd ']' 2) :=
  ⟨fun s c i h => splitOnCommas_bracketEnd s c i h, rfl, rfl, rfl⟩

/-- Witness for C8's amended statement at a concrete input. -/
theorem claim8_amended_witness :
    "(]".data.get? 1 = some ']' ∧ (']' = ')' ∨ ']' = ']') :=
  claim8_amended.1 "(]" ']' 1 rfl

/-- C9 counterexample: the duplicate section header is the second line of
the input, at 1-based position 2, but the diagnostic carries the number 1
— the enumeration is 0-based, not 1-based as claimed. -/
theorem claim9_counterexample :
    getConfigDicts [] "TS" ["[a]", "[a]"] = .error (.dupObject 1 "a") ∧
    errLine (.dupObject 1 "a") = some 1 :=
  ⟨rfl, rfl⟩

/-- C9 amended: every syntax error of the parser carries the 0-based index
(1-based position minus one) of the offending line: `processLine` always
stamps its own index, every parse failure originates from `processLine` on
the offending line at its 0-based index, and the concrete duplicate-key,
unknown-line and wrapped-formatting failures all carry 0-based indexes. -/
theorem claim9_amended :
    (∀ (reg : Registry) (ts : String) (i : Nat) (st : ParseState)
      (raw : String) (e : CfgError),
      processLine reg ts i st raw = .error e → errLine e = some i) ∧
    (∀ (reg : Registry) (ts : String) (lines : List String) (e : CfgError),
      getConfigDicts reg ts lines = .error e →
      ∃ k l st', lines.get? k = some l ∧
        processLine reg ts k st' l = .error e ∧ errLine e = some k) ∧
    getConfigDicts [] "TS" ["[a]", "x = 1", "x = 2"] =
      .error (.dupKey 2 "x") ∧
    getConfigDicts [] "TS" ["[a]", "???"] =
      .error (.unknownString 1 "???") ∧
    getConfigDicts [] "TS" ["[a]", "x = [1,abc]"] =
      .error (.iniWrap 1 (.heteroList [.intT, .strT])) := by
  refine ⟨fun reg ts i st raw e h => processLine_errLine reg ts i st raw e h,
    ?_, rfl, rfl, rfl⟩
  intro reg ts lines e h
  obtain ⟨k, l, st', hg, hp⟩ :=
    getConfigDictsAux_err reg ts lines 0 ⟨[], none⟩ e h
  rw [Nat.zero_add] at hp
  exact ⟨k, l, st', hg, hp, processLine_errLine reg ts k st' l e hp⟩

/-- Witness for C9's amended statement at a concrete input. -/
theorem claim9_amended_witness : errLine (CfgError.dupKey 2 "x") = some 2 :=
  claim9_amended.1 [] "TS" 2 ⟨[("a", [("x", .pyint 1)])], some "a"⟩ "x = 2"
    (.dupKey 2 "x") rfl

/-- C10: a string value is treated as an object reference exactly when it
begins with `"object:"`: a non-marker string (not ignored, not cached) is
returned unchanged, a marker string is interpreted as a reference to the
section named by the rest of the string (failing as object-not-defined
when no such section exists), the value grammar leaves the bracketless
text `object:foo` a raw string, and loading a document with that raw value
constructs section `foo` and keys the cache by the full marker string. -/
theorem claim10_object_marker :
    (∀ (dicts : List (String × List (String × PyVal))) (ign : List String)
      (fuel : Nat) (s : String) (st : BuildState) (d : Nat),
      s ∉ ign → lookupA st.cache s = none →
      s.data.take 7 ≠ objectPrefixChars →
      getObjectF dicts ign (fuel + 1) (.pystr s) st d = .ok (.pystr s, st)) ∧
    (∀ (dicts : List (String × List (String × PyVal))) (ign : List String)
      (fuel : Nat) (s : String) (st : BuildState) (d : Nat),
      s ∉ ign → lookupA st.cache s = none →
      s.data.take 7 = objectPrefixChars →
      lookupA dicts (String.mk (s.data.drop 7)) = none →
      getObjectF dicts ign (fuel + 1) (.pystr s) st d =
        .error (.objectNotDefined (String.mk (s.data.drop 7)))) ∧
    formatValue [] "object:foo" = .ok (.pystr "object:foo") ∧
    loadConfigRun regK "TS" ["[main]", "x = object:foo", "[foo]", "class=m.K"]
        [] =
      .ok ([("x", .pyinst 0)], ⟨[("object:foo", .pyinst 0)], 1, ["foo"]⟩) :=
  ⟨fun dicts ign fuel s st d h1 h2 h3 =>
      getObjectF_str_plain dicts ign fuel s st d h1 h2 h3,
   fun dicts ign fuel s st d h1 h2 h3 h4 =>
      getObjectF_str_undef dicts ign fuel s st d h1 h2 h3 h4,
   rfl, rfl⟩

/-- Witness for C10 at concrete inputs. -/
theorem claim10_object_marker_witness :
    getObjectF [] [] 3 (.pystr "hello") st0 0 = .ok (.pystr "hello", st0) ∧
    getObjectF [] [] 3 (.pystr "object:nope") st0 0 =
      .error (.objectNotDefined (String.mk ("object:nope".data.drop 7))) :=
  ⟨claim10_object_marker.1 [] [] 2 "hello" st0 0 (by decide) rfl (by decide),
   claim10_object_marker.2.1 [] [] 2 "object:nope" st0 0 (by decide) rfl
     (by decide) rfl⟩
